import Mathlib

/-!
Verification of the OpenDAL core against its natural-language specification.

This file shallowly embeds the parts of the repository that the claims
touch:

* `raw/oio/write/multipart_write.rs` — the `MultipartWriter` state machine
  (`write` / `close` / `abort`) over the five `MultipartWrite` backend
  primitives.  Backend responses and task-pool outcomes are supplied by an
  `Oracle`, so theorems quantify over every possible backend behaviour.
  The `ConcurrentTasks` pool itself is not part of the sources; following
  the specification (§4.3) it is modelled as a FIFO queue whose results
  surface in submission order and which retains a task whose attempt
  failed.
* `layers/logging.rs` — the `LoggingAccessor` operations, the stream
  wrappers (`LoggingReader` / `LoggingWriter` / `LoggingLister` /
  `LoggingDeleter`) and the `DefaultLoggingInterceptor`.
* `services/gcs/backend.rs` — `GcsBackend::presign`.

Every backend interaction is recorded in an explicit event trace so that
claims about which primitives were (or were not) invoked are statable.
-/

namespace Opendal

instance {ε α : Type} [DecidableEq ε] [DecidableEq α] : DecidableEq (Except ε α) := fun x y =>
  match x, y with
  | .ok a, .ok b => decidable_of_iff (a = b) (by simp)
  | .ok _, .error _ => .isFalse (by simp)
  | .error _, .ok _ => .isFalse (by simp)
  | .error a, .error b => decidable_of_iff (a = b) (by simp)

/-- Error kinds, from the repository's error taxonomy (spec §7). -/
inductive ErrorKind
  | NotFound
  | AlreadyExists
  | PermissionDenied
  | ConfigInvalid
  | Unsupported
  | RateLimited
  | ConditionNotMatch
  | RangeNotSatisfied
  | IsADirectory
  | NotADirectory
  | IsSameFile
  | Unexpected
deriving DecidableEq, Repr

/-- An OpenDAL error: kind, message and the `temporary` retry flag.
The ordered context list is folded into the message in this model. -/
structure Error where
  kind : ErrorKind
  message : String
  temporary : Bool
deriving DecidableEq, Repr

/-- Object metadata; only the content length matters for the claims. -/
structure Metadata where
  content_length : Nat
deriving DecidableEq, Repr

/-- An immutable byte buffer (`Buffer`), modelled as its byte list. -/
structure Buffer where
  data : List Nat
deriving DecidableEq, Repr

/-- `Buffer::len`. -/
def Buffer.len (b : Buffer) : Nat := b.data.length

/-- `Buffer::new()`: the empty buffer. -/
def Buffer.new : Buffer := ⟨[]⟩

/-- The result of `MultipartWrite::write_part`
(`multipart_write.rs`, `MultipartPart`). -/
structure MultipartPart where
  part_number : Nat
  etag : String
  checksum : Option String
deriving DecidableEq, Repr

/-- One observable backend call made by the multipart writer, with the
success flag of the call.  This is the writer's externally visible trace. -/
inductive Event
  | writeOnce (size : Nat) (body : Buffer) (ok : Bool)
  | initiatePart (ok : Bool)
  | writePart (upload_id : String) (part_number : Nat) (size : Nat) (ok : Bool)
  | completePart (upload_id : String) (parts : List MultipartPart) (ok : Bool)
  | abortPart (upload_id : String) (ok : Bool)
deriving DecidableEq, Repr

/-- Environment oracle: decides the outcome of every backend primitive and
of every task-pool `execute` call.  Each consultation is indexed by the
writer's logical clock, so outcomes may differ between retries; quantifying
over all oracles quantifies over all backend behaviours. -/
structure Oracle where
  initRes : Nat → Except Error String
  execRes : Nat → Option Error
  partRes : Nat → Nat → Buffer → Except Error MultipartPart
  onceRes : Nat → Nat → Buffer → Except Error Metadata
  completeRes : Nat → String → List MultipartPart → Except Error Metadata
  abortRes : Nat → String → Option Error

/-- The state of `MultipartWriter` (`multipart_write.rs` lines 133-143):
`upload_id`, collected `parts`, the `cache` buffer and `next_part_number`,
plus the pending task queue of the `ConcurrentTasks` pool (modelled from
the spec §4.3 as the FIFO list of submitted `(part_number, bytes)` inputs
whose results have not been delivered yet) and the oracle clock. -/
structure WState where
  upload_id : Option String
  parts : List MultipartPart
  cache : Option Buffer
  next_part_number : Nat
  queue : List (Nat × Buffer)
  clock : Nat
deriving DecidableEq, Repr

/-- Fresh writer, as produced by `MultipartWriter::new`. -/
def wInit : WState :=
  { upload_id := none, parts := [], cache := none, next_part_number := 0
    queue := [], clock := 0 }

/-- Outcome of one writer method: the returned `Result`, the writer state
afterwards, and the backend calls performed. -/
structure WRes (α : Type) where
  res : Except Error α
  st : WState
  events : List Event

/-- The error produced by the `expect("pending write must exist")` panic in
`MultipartWriter::write`; unreachable in contract-conforming runs. -/
def panicPendingWrite : Error :=
  { kind := .Unexpected, message := "pending write must exist", temporary := false }

/-- `MultipartWriter::write` (`multipart_write.rs` lines 209-242).
If `upload_id` is unset and the cache is empty, the buffer is cached and
the call returns (the oneshot candidate).  Otherwise the previously cached
buffer is submitted to the task pool under `next_part_number`; only after a
successful submission are the cache cleared, the part number incremented
and the new buffer cached. -/
def doWrite (o : Oracle) (s : WState) (bs : Buffer) : WRes Unit :=
  match s.upload_id with
  | none =>
    match s.cache with
    | none => { res := .ok (), st := { s with cache := some bs }, events := [] }
    | some c =>
      match o.initRes s.clock with
      | .error e =>
        { res := .error e, st := { s with clock := s.clock + 1 }
          events := [Event.initiatePart false] }
      | .ok uid =>
        match o.execRes (s.clock + 1) with
        | some e =>
          { res := .error e
            st := { s with upload_id := some uid, clock := s.clock + 2 }
            events := [Event.initiatePart true] }
        | none =>
          { res := .ok ()
            st := { s with
                    upload_id := some uid,
                    queue := s.queue ++ [(s.next_part_number, c)],
                    cache := some bs,
                    next_part_number := s.next_part_number + 1,
                    clock := s.clock + 2 }
            events := [Event.initiatePart true] }
  | some _ =>
    match s.cache with
    | none => { res := .error panicPendingWrite, st := s, events := [] }
    | some c =>
      match o.execRes s.clock with
      | some e => { res := .error e, st := { s with clock := s.clock + 1 }, events := [] }
      | none =>
        { res := .ok ()
          st := { s with
                  queue := s.queue ++ [(s.next_part_number, c)],
                  cache := some bs,
                  next_part_number := s.next_part_number + 1,
                  clock := s.clock + 1 }
          events := [] }

/-- Result of draining the task pool inside `close`. -/
structure DrainOut where
  res : Except Error Unit
  clock : Nat
  parts : List MultipartPart
  queue : List (Nat × Buffer)
  events : List Event

/-- The drain loop of `MultipartWriter::close` (lines 277-282): repeatedly
take the next task result in submission order and push it onto `parts`.
A failed attempt surfaces its error and, per spec §4.3/§4.4, the failed
task stays at the head of the queue so a retried `close` re-runs it. -/
def drainGo (o : Oracle) (uid : String) :
    Nat → List MultipartPart → List (Nat × Buffer) → DrainOut
  | clock, parts, [] =>
    { res := .ok (), clock := clock, parts := parts, queue := [], events := [] }
  | clock, parts, (pn, bs) :: rest =>
    match o.partRes clock pn bs with
    | .error e =>
      { res := .error e, clock := clock + 1, parts := parts
        queue := (pn, bs) :: rest
        events := [Event.writePart uid pn bs.len false] }
    | .ok p =>
      let d := drainGo o uid (clock + 1) (parts ++ [p]) rest
      { d with events := Event.writePart uid pn bs.len true :: d.events }

/-- The final-part submission step of `close` (lines 261-275): if the cache
is non-empty, submit it as part `next_part_number`; the cache is cleared
and the counter incremented only when the submission succeeds. -/
def closeSubmit (o : Oracle) (s : WState) : WRes Unit :=
  match s.cache with
  | none => { res := .ok (), st := s, events := [] }
  | some c =>
    match o.execRes s.clock with
    | some e => { res := .error e, st := { s with clock := s.clock + 1 }, events := [] }
    | none =>
      { res := .ok ()
        st := { s with
                queue := s.queue ++ [(s.next_part_number, c)],
                cache := none,
                next_part_number := s.next_part_number + 1,
                clock := s.clock + 1 }
        events := [] }

/-- The invariant-violation error of `close` (lines 284-292). -/
def mismatchError : Error :=
  { kind := .Unexpected
    message := "multipart part numbers mismatch, please report bug to opendal"
    temporary := false }

/-- The drain / verify / complete tail of `close` (lines 277-293): drain
the pool in submission order into `parts`, check
`parts.len() == next_part_number` (failing with `Unexpected` otherwise),
then call `complete_part(upload_id, parts)`. -/
def closeDrain (o : Oracle) (uid : String) (s : WState) : WRes Metadata :=
  let d := drainGo o uid s.clock s.parts s.queue
  let s2 := { s with clock := d.clock, parts := d.parts, queue := d.queue }
  match d.res with
  | .error e => { res := .error e, st := s2, events := d.events }
  | .ok _ =>
    if s2.parts.length ≠ s2.next_part_number then
      { res := .error mismatchError, st := s2, events := d.events }
    else
      match o.completeRes s2.clock uid s2.parts with
      | .error e =>
        { res := .error e, st := { s2 with clock := s2.clock + 1 }
          events := d.events ++ [Event.completePart uid s2.parts false] }
      | .ok m =>
        { res := .ok m, st := { s2 with clock := s2.clock + 1 }
          events := d.events ++ [Event.completePart uid s2.parts true] }

/-- `MultipartWriter::close` (lines 244-294).  Without an `upload_id` it is
the oneshot path: `write_once(|cache|, cache)` (empty buffer when nothing
was written), clearing the cache only on success.  With an `upload_id` it
submits the cached final part and runs the drain / verify / complete tail. -/
def doClose (o : Oracle) (s : WState) : WRes Metadata :=
  match s.upload_id with
  | none =>
    let sz := match s.cache with | some c => c.len | none => 0
    let body := match s.cache with | some c => c | none => Buffer.new
    match o.onceRes s.clock sz body with
    | .error e =>
      { res := .error e, st := { s with clock := s.clock + 1 }
        events := [Event.writeOnce sz body false] }
    | .ok m =>
      { res := .ok m, st := { s with cache := none, clock := s.clock + 1 }
        events := [Event.writeOnce sz body true] }
  | some uid =>
    let r1 := closeSubmit o s
    match r1.res with
    | .error e => { res := .error e, st := r1.st, events := r1.events }
    | .ok _ =>
      let r2 := closeDrain o uid r1.st
      { res := r2.res, st := r2.st, events := r1.events ++ r2.events }

/-- `MultipartWriter::abort` (lines 296-305): a no-op without an
`upload_id`; otherwise clear the task pool, drop the cache and call
`abort_part`. -/
def doAbort (o : Oracle) (s : WState) : WRes Unit :=
  match s.upload_id with
  | none => { res := .ok (), st := s, events := [] }
  | some uid =>
    let s1 := { s with queue := ([] : List (Nat × Buffer)), cache := none }
    match o.abortRes s1.clock uid with
    | some e =>
      { res := .error e, st := { s1 with clock := s1.clock + 1 }
        events := [Event.abortPart uid false] }
    | none =>
      { res := .ok (), st := { s1 with clock := s1.clock + 1 }
        events := [Event.abortPart uid true] }

/-- A user-level operation on the writer. -/
inductive Op
  | write (bs : Buffer)
  | close
  | abort
deriving DecidableEq, Repr

/-- One user operation: final state and emitted backend events
(the per-operation `Result` is discarded here). -/
def stepOp (o : Oracle) (s : WState) : Op → WState × List Event
  | .write bs => let r := doWrite o s bs; (r.st, r.events)
  | .close => let r := doClose o s; (r.st, r.events)
  | .abort => let r := doAbort o s; (r.st, r.events)

/-- Run a sequence of user operations, accumulating the backend trace. -/
def runOps (o : Oracle) (s : WState) : List Op → WState × List Event
  | [] => (s, [])
  | op :: rest =>
    let p := stepOp o s op
    let q := runOps o p.1 rest
    (q.1, p.2 ++ q.2)

/-- The part numbers of the successful `write_part` calls in a trace,
in the order the backend accepted them. -/
def okPartPns (tr : List Event) : List Nat :=
  tr.filterMap fun e => match e with
    | .writePart _ pn _ true => some pn
    | _ => none

/-- The `complete_part` calls in a trace: upload id, parts argument and
success flag. -/
def completeCalls (tr : List Event) : List (String × List MultipartPart × Bool) :=
  tr.filterMap fun e => match e with
    | .completePart uid ps ok => some (uid, ps, ok)
    | _ => none

/-- The backend honours part numbers: a successful `write_part` returns a
`MultipartPart` carrying the submitted part number (spec §6: the core
depends on part numbers being honoured). -/
def HonorsParts (o : Oracle) : Prop :=
  ∀ k pn bs p, o.partRes k pn bs = .ok p → p.part_number = pn

/-- A run contains no `abort` operation. -/
def NoAbort (ops : List Op) : Prop := ∀ op ∈ ops, op ≠ Op.abort

/-- A concrete all-succeeding oracle, used to instantiate theorems with
hypotheses on concrete runs. -/
def oGood : Oracle :=
  { initRes := fun _ => .ok "uid-1"
    execRes := fun _ => none
    partRes := fun _ pn _ => .ok { part_number := pn, etag := "etag", checksum := none }
    onceRes := fun _ sz _ => .ok { content_length := sz }
    completeRes := fun _ _ _ => .ok { content_length := 0 }
    abortRes := fun _ _ => none }

/-- A temporary error used by the failing oracles. -/
def errTmp : Error :=
  { kind := .Unexpected, message := "I am a crazy monkey", temporary := true }

/-- A concrete oracle whose backend and task pool always fail. -/
def oBad : Oracle :=
  { initRes := fun _ => .error errTmp
    execRes := fun _ => some errTmp
    partRes := fun _ _ _ => .error errTmp
    onceRes := fun _ _ _ => .error errTmp
    completeRes := fun _ _ _ => .error errTmp
    abortRes := fun _ _ => some errTmp }

/-- `true` exactly when an `Except` value is a success. -/
def exOk {α : Type} : Except Error α → Bool
  | .ok _ => true
  | .error _ => false

/-- A concrete mid-session writer state: upload started, one buffer cached. -/
def sMid : WState :=
  { upload_id := some "uid-1", parts := [], cache := some ⟨[9]⟩
    next_part_number := 5, queue := [], clock := 0 }

/-- Oracle for the C1 counterexample run: every primitive succeeds except
`complete_part`, which fails on its first invocation (clock value 5) and
succeeds from then on — a transient completion failure. -/
def oFlakyComplete : Oracle :=
  { initRes := fun _ => .ok "uid-1"
    execRes := fun _ => none
    partRes := fun _ pn _ => .ok { part_number := pn, etag := "etag", checksum := none }
    onceRes := fun _ sz _ => .ok { content_length := sz }
    completeRes := fun k _ _ =>
      if 6 ≤ k then .ok { content_length := 2 } else .error errTmp
    abortRes := fun _ _ => none }

/-- The session invariant of the multipart writer: the part numbers of the
collected parts followed by the part numbers still queued in the pool form
exactly `0, 1, …, next_part_number - 1`; the successful `write_part` calls
recorded in the trace are exactly the collected parts, in order; and before
`initiate_part` everything is empty. -/
def Inv (s : WState) (tr : List Event) : Prop :=
  s.parts.map MultipartPart.part_number ++ s.queue.map Prod.fst
      = List.range s.next_part_number
  ∧ okPartPns tr = s.parts.map MultipartPart.part_number
  ∧ (s.upload_id = none → s.parts = [] ∧ s.queue = [] ∧ s.next_part_number = 0)

/-- Log levels of the `log` crate, as used by `DefaultLoggingInterceptor`. -/
inductive Level
  | error
  | warn
  | info
  | debug
  | trace
deriving DecidableEq, Repr

/-- The `raw::Operation` values used by the logging layer. -/
inductive Operation
  | createDir
  | read
  | write
  | copy
  | rename
  | stat
  | delete
  | list
  | presign
deriving DecidableEq, Repr

/-- One record emitted by a logging interceptor: level, operation, context
key/value pairs, message and the attached error, if any. -/
structure LogRecord where
  level : Level
  operation : Operation
  context : List (String × String)
  message : String
  err : Option Error
deriving DecidableEq, Repr

/-- The shape of `LoggingInterceptor::log` (`logging.rs` lines 146-170):
any function from operation, context, message and optional error to the
records it emits.  (The `AccessorInfo` argument only feeds the formatted
output and is omitted.) -/
abbrev Logger :=
  Operation → List (String × String) → String → Option Error → List LogRecord

/-- `DefaultLoggingInterceptor::log` (`logging.rs` lines 176-222): with an
error present it emits one record at `Error` level when the error kind is
`Unexpected` and at `Warn` level otherwise, attaching the error; it then
always emits the `Debug`-level record as well. -/
def DefaultLoggingInterceptor.log : Logger := fun operation context message err =>
  match err with
  | some e =>
    [{ level := if e.kind = ErrorKind.Unexpected then Level.error else Level.warn
       operation := operation, context := context, message := message, err := some e },
     { level := Level.debug, operation := operation, context := context
       message := message, err := none }]
  | none =>
    [{ level := Level.debug, operation := operation, context := context
       message := message, err := none }]

/-- An inner reader stream: the result of its `k`-th `read()` call. -/
abbrev InnerReader := Nat → Except Error Buffer

/-- `LoggingReader` (`logging.rs` lines 544-564): path, bytes read so far,
index of the next call, and the wrapped inner reader. -/
structure LoggingReader where
  path : String
  read : Nat
  idx : Nat
  inner : InnerReader

/-- `LoggingReader::new`. -/
def LoggingReader.new (path : String) (r : InnerReader) : LoggingReader :=
  { path := path, read := 0, idx := 0, inner := r }

/-- `LoggingReader::read` (lines 566-599): forward the inner result
unchanged; log `finished` on an empty (end-of-stream) buffer, count bytes
on a non-empty one, log `failed` on an error. -/
def LoggingReader.readStep (logger : Logger) (r : LoggingReader) :
    Except Error Buffer × LoggingReader × List LogRecord :=
  match r.inner r.idx with
  | .ok bs =>
    if bs.len = 0 then
      (.ok bs, { r with idx := r.idx + 1 },
       logger .read
         [("path", r.path), ("read", toString r.read), ("size", toString bs.len)]
         "finished" none)
    else
      (.ok bs, { r with read := r.read + bs.len, idx := r.idx + 1 }, [])
  | .error e =>
    (.error e, { r with idx := r.idx + 1 },
     logger .read [("path", r.path), ("read", toString r.read)] "failed" (some e))

/-- An inner writer: per-call results of `write`, `close` and `abort`. -/
structure InnerWriter where
  writeRes : Nat → Buffer → Except Error Unit
  closeRes : Nat → Except Error Metadata
  abortRes : Nat → Except Error Unit

/-- `LoggingWriter` (lines 601-621): path, bytes written so far, call
clock, and the wrapped inner writer. -/
structure LoggingWriter where
  path : String
  written : Nat
  clock : Nat
  inner : InnerWriter

/-- `LoggingWriter::new`. -/
def LoggingWriter.new (path : String) (w : InnerWriter) : LoggingWriter :=
  { path := path, written := 0, clock := 0, inner := w }

/-- `LoggingWriter::write` (lines 624-647): forward the result; count the
bytes on success, log `failed` on error. -/
def LoggingWriter.writeStep (logger : Logger) (w : LoggingWriter) (bs : Buffer) :
    Except Error Unit × LoggingWriter × List LogRecord :=
  match w.inner.writeRes w.clock bs with
  | .ok _ =>
    (.ok (), { w with written := w.written + bs.len, clock := w.clock + 1 }, [])
  | .error e =>
    (.error e, { w with clock := w.clock + 1 },
     logger .write
       [("path", w.path), ("written", toString w.written), ("size", toString bs.len)]
       "failed" (some e))

/-- `LoggingWriter::abort` (lines 649-672). -/
def LoggingWriter.abortStep (logger : Logger) (w : LoggingWriter) :
    Except Error Unit × LoggingWriter × List LogRecord :=
  match w.inner.abortRes w.clock with
  | .ok _ =>
    (.ok (), { w with clock := w.clock + 1 },
     logger .write [("path", w.path), ("written", toString w.written)]
       "abort succeeded" none)
  | .error e =>
    (.error e, { w with clock := w.clock + 1 },
     logger .write [("path", w.path), ("written", toString w.written)]
       "abort failed" (some e))

/-- `LoggingWriter::close` (lines 674-697). -/
def LoggingWriter.closeStep (logger : Logger) (w : LoggingWriter) :
    Except Error Metadata × LoggingWriter × List LogRecord :=
  match w.inner.closeRes w.clock with
  | .ok m =>
    (.ok m, { w with clock := w.clock + 1 },
     logger .write [("path", w.path), ("written", toString w.written)]
       "close succeeded" none)
  | .error e =>
    (.error e, { w with clock := w.clock + 1 },
     logger .write [("path", w.path), ("written", toString w.written)]
       "close failed" (some e))

/-- A directory entry, as produced by a lister. -/
structure Entry where
  path : String
deriving DecidableEq, Repr

/-- An inner lister: the result of its `k`-th `next()` call. -/
abbrev InnerLister := Nat → Except Error (Option Entry)

/-- `LoggingLister` (lines 700-720). -/
structure LoggingLister where
  path : String
  listed : Nat
  idx : Nat
  inner : InnerLister

/-- `LoggingLister::new`. -/
def LoggingLister.new (path : String) (l : InnerLister) : LoggingLister :=
  { path := path, listed := 0, idx := 0, inner := l }

/-- `LoggingLister::next` (lines 722-752): forward the result; count the
entries, log `finished` at end-of-stream, `failed` on error. -/
def LoggingLister.nextStep (logger : Logger) (l : LoggingLister) :
    Except Error (Option Entry) × LoggingLister × List LogRecord :=
  match l.inner l.idx with
  | .ok (some en) =>
    (.ok (some en), { l with listed := l.listed + 1, idx := l.idx + 1 }, [])
  | .ok none =>
    (.ok none, { l with idx := l.idx + 1 },
     logger .list [("path", l.path), ("listed", toString l.listed)] "finished" none)
  | .error e =>
    (.error e, { l with idx := l.idx + 1 },
     logger .list [("path", l.path), ("listed", toString l.listed)] "failed" (some e))

/-- An inner deleter: per-call results of `delete(path, version)` and
`flush`. -/
structure InnerDeleter where
  deleteRes : Nat → String → Option String → Except Error Unit
  flushRes : Nat → Except Error Nat

/-- `LoggingDeleter` (lines 754-774): queued and deleted counters, call
clock, and the wrapped inner deleter. -/
structure LoggingDeleter where
  queued : Nat
  deleted : Nat
  clock : Nat
  inner : InnerDeleter

/-- `LoggingDeleter::new`. -/
def LoggingDeleter.new (d : InnerDeleter) : LoggingDeleter :=
  { queued := 0, deleted := 0, clock := 0, inner := d }

/-- `LoggingDeleter::delete` (lines 777-806): forward the submission
result; a success increments `queued`, a failure is logged with the
version defaulting to `<latest>`. -/
def LoggingDeleter.deleteStep (logger : Logger) (d : LoggingDeleter)
    (path : String) (version : Option String) :
    Except Error Unit × LoggingDeleter × List LogRecord :=
  match d.inner.deleteRes d.clock path version with
  | .ok _ => (.ok (), { d with queued := d.queued + 1, clock := d.clock + 1 }, [])
  | .error e =>
    (.error e, { d with clock := d.clock + 1 },
     logger .delete
       [("path", path), ("version", version.getD "<latest>"),
        ("queued", toString d.queued), ("deleted", toString d.deleted)]
       "failed" (some e))

/-- `LoggingDeleter::flush` (lines 808-841): on success `n` objects move
from `queued` to `deleted` (the source uses `usize` subtraction, which is
truncated subtraction here); on failure both counters are unchanged. -/
def LoggingDeleter.flushStep (logger : Logger) (d : LoggingDeleter) :
    Except Error Nat × LoggingDeleter × List LogRecord :=
  match d.inner.flushRes d.clock with
  | .ok n =>
    (.ok n,
     { d with queued := d.queued - n, deleted := d.deleted + n, clock := d.clock + 1 },
     logger .delete
       [("queued", toString (d.queued - n)), ("deleted", toString (d.deleted + n))]
       "succeeded" none)
  | .error e =>
    (.error e, { d with clock := d.clock + 1 },
     logger .delete
       [("queued", toString d.queued), ("deleted", toString d.deleted)]
       "failed" (some e))

/-- `LoggingAccessor::create_dir` (`logging.rs` lines 260-290): log
`started`, forward to the inner accessor unchanged, log `finished` or
`failed`. -/
def LoggingAccessor.create_dir {α ρ : Type} (logger : Logger)
    (inner : String → α → Except Error ρ) (path : String) (args : α) :
    Except Error ρ × List LogRecord :=
  let l0 := logger .createDir [("path", path)] "started" none
  match inner path args with
  | .ok rp => (.ok rp, l0 ++ logger .createDir [("path", path)] "finished" none)
  | .error e => (.error e, l0 ++ logger .createDir [("path", path)] "failed" (some e))

/-- `LoggingAccessor::read` (lines 292-326): forward the result; on
success wrap the reader in a fresh `LoggingReader`. -/
def LoggingAccessor.read {α ρ : Type} (logger : Logger)
    (inner : String → α → Except Error (ρ × InnerReader)) (path : String) (args : α) :
    Except Error (ρ × LoggingReader) × List LogRecord :=
  let l0 := logger .read [("path", path)] "started" none
  match inner path args with
  | .ok x =>
    (.ok (x.1, LoggingReader.new path x.2),
     l0 ++ logger .read [("path", path)] "created reader" none)
  | .error e => (.error e, l0 ++ logger .read [("path", path)] "failed" (some e))

/-- `LoggingAccessor::write` (lines 328-360). -/
def LoggingAccessor.write {α ρ : Type} (logger : Logger)
    (inner : String → α → Except Error (ρ × InnerWriter)) (path : String) (args : α) :
    Except Error (ρ × LoggingWriter) × List LogRecord :=
  let l0 := logger .write [("path", path)] "started" none
  match inner path args with
  | .ok x =>
    (.ok (x.1, LoggingWriter.new path x.2),
     l0 ++ logger .write [("path", path)] "created writer" none)
  | .error e => (.error e, l0 ++ logger .write [("path", path)] "failed" (some e))

/-- `LoggingAccessor::copy` (lines 362-392). -/
def LoggingAccessor.copy {α ρ : Type} (logger : Logger)
    (inner : String → String → α → Except Error ρ)
    (frm dst : String) (args : α) : Except Error ρ × List LogRecord :=
  let l0 := logger .copy [("from", frm), ("to", dst)] "started" none
  match inner frm dst args with
  | .ok rp => (.ok rp, l0 ++ logger .copy [("from", frm), ("to", dst)] "finished" none)
  | .error e =>
    (.error e, l0 ++ logger .copy [("from", frm), ("to", dst)] "failed" (some e))

/-- `LoggingAccessor::rename` (lines 394-424). -/
def LoggingAccessor.rename {α ρ : Type} (logger : Logger)
    (inner : String → String → α → Except Error ρ)
    (frm dst : String) (args : α) : Except Error ρ × List LogRecord :=
  let l0 := logger .rename [("from", frm), ("to", dst)] "started" none
  match inner frm dst args with
  | .ok rp => (.ok rp, l0 ++ logger .rename [("from", frm), ("to", dst)] "finished" none)
  | .error e =>
    (.error e, l0 ++ logger .rename [("from", frm), ("to", dst)] "failed" (some e))

/-- `LoggingAccessor::stat` (lines 426-456). -/
def LoggingAccessor.stat {α ρ : Type} (logger : Logger)
    (inner : String → α → Except Error ρ) (path : String) (args : α) :
    Except Error ρ × List LogRecord :=
  let l0 := logger .stat [("path", path)] "started" none
  match inner path args with
  | .ok rp => (.ok rp, l0 ++ logger .stat [("path", path)] "finished" none)
  | .error e => (.error e, l0 ++ logger .stat [("path", path)] "failed" (some e))

/-- `LoggingAccessor::delete` (lines 458-475): no path context; on success
logs `finished` and wraps the deleter in a fresh `LoggingDeleter`. -/
def LoggingAccessor.delete {ρ : Type} (logger : Logger)
    (inner : Except Error (ρ × InnerDeleter)) :
    Except Error (ρ × LoggingDeleter) × List LogRecord :=
  let l0 := logger .delete [] "started" none
  match inner with
  | .ok x =>
    (.ok (x.1, LoggingDeleter.new x.2), l0 ++ logger .delete [] "finished" none)
  | .error e => (.error e, l0 ++ logger .delete [] "failed" (some e))

/-- `LoggingAccessor::list` (lines 477-509). -/
def LoggingAccessor.list {α ρ : Type} (logger : Logger)
    (inner : String → α → Except Error (ρ × InnerLister)) (path : String) (args : α) :
    Except Error (ρ × LoggingLister) × List LogRecord :=
  let l0 := logger .list [("path", path)] "started" none
  match inner path args with
  | .ok x =>
    (.ok (x.1, LoggingLister.new path x.2),
     l0 ++ logger .list [("path", path)] "created lister" none)
  | .error e => (.error e, l0 ++ logger .list [("path", path)] "failed" (some e))

/-- `LoggingAccessor::presign` (lines 511-541). -/
def LoggingAccessor.presign {α ρ : Type} (logger : Logger)
    (inner : String → α → Except Error ρ) (path : String) (args : α) :
    Except Error ρ × List LogRecord :=
  let l0 := logger .presign [("path", path)] "started" none
  match inner path args with
  | .ok rp => (.ok rp, l0 ++ logger .presign [("path", path)] "finished" none)
  | .error e => (.error e, l0 ++ logger .presign [("path", path)] "failed" (some e))

/-- An HTTP request under construction: method, URI and headers. -/
structure HttpRequest where
  method : String
  uri : String
  headers : List (String × String)
deriving DecidableEq, Repr

/-- `PresignedRequest`: the signed request parts returned by presign. -/
structure PresignedRequest where
  method : String
  uri : String
  headers : List (String × String)
deriving DecidableEq, Repr

/-- A network side effect: an HTTP request actually sent to the service. -/
inductive NetEvent
  | httpSend (r : HttpRequest)
deriving DecidableEq, Repr

/-- `PresignOperation` (Stat / Read / Write / Delete), with the operation
arguments left opaque. -/
inductive PresignOperation
  | stat (v : Nat)
  | read (v : Nat)
  | write (v : Nat)
  | delete (v : Nat)
deriving DecidableEq, Repr

/-- Modelled from the spec: `GcsCore::gcs_head_object_xml_request` lives in
`services/gcs/core.rs`, which is not among the sources; per spec §4.1 and
the glossary, presign only builds a stand-alone request, with no network
I/O. -/
def gcs_head_object_xml_request (path : String) (v : Nat) : HttpRequest :=
  { method := "HEAD", uri := "https://storage.googleapis.com/" ++ path
    headers := [("x-goog-args", toString v)] }

/-- Modelled from the spec: `GcsCore::gcs_get_object_xml_request`
(`services/gcs/core.rs`, not among the sources): a pure request builder. -/
def gcs_get_object_xml_request (path : String) (v : Nat) : HttpRequest :=
  { method := "GET", uri := "https://storage.googleapis.com/" ++ path
    headers := [("x-goog-args", toString v)] }

/-- Modelled from the spec: `GcsCore::gcs_insert_object_xml_request`
(`services/gcs/core.rs`, not among the sources): a pure request builder. -/
def gcs_insert_object_xml_request (path : String) (v : Nat) : HttpRequest :=
  { method := "PUT", uri := "https://storage.googleapis.com/" ++ path
    headers := [("x-goog-args", toString v)] }

/-- `GcsBackend::presign` (`services/gcs/backend.rs` lines 473-498): build
the request for the presign operation — `Delete` fails with `Unsupported` —
then sign the query (`sign_query` is in `core.rs` and is passed in here as
an arbitrary function) and return the request parts.  The request is never
sent, so no network event is ever emitted. -/
def GcsBackend.presign (sign_query : HttpRequest → Nat → Except Error HttpRequest)
    (path : String) (op : PresignOperation) (expire : Nat) :
    Except Error PresignedRequest × List NetEvent :=
  let req : Except Error HttpRequest :=
    match op with
    | .stat v => .ok (gcs_head_object_xml_request path v)
    | .read v => .ok (gcs_get_object_xml_request path v)
    | .write v => .ok (gcs_insert_object_xml_request path v)
    | .delete _ =>
      .error { kind := .Unsupported, message := "operation is not supported"
               temporary := false }
  match req with
  | .error e => (.error e, [])
  | .ok r =>
    match sign_query r expire with
    | .error e => (.error e, [])
    | .ok r2 => (.ok { method := r2.method, uri := r2.uri, headers := r2.headers }, [])

/-- A concrete inner deleter used for witnesses: every submission succeeds
and `flush` always reports two deletions. -/
def dInner : InnerDeleter :=
  { deleteRes := fun _ _ _ => .ok ()
    flushRes := fun _ => .ok 2 }

/-- C2: a run of exactly one successful `write(bs)` followed by a successful
`close()` on a fresh `MultipartWriter` makes exactly one backend call,
`write_once(bs.len, bs)`; no `initiate_part`, `write_part`, `complete_part`
or `abort_part` call is ever made. -/
theorem oneshot_write_close_trace (o : Oracle) (bs : Buffer) (m : Metadata)
    (h : (doClose o (doWrite o wInit bs).st).res = .ok m) :
    (doWrite o wInit bs).res = .ok () ∧
    (doWrite o wInit bs).events ++ (doClose o (doWrite o wInit bs).st).events
      = [Event.writeOnce bs.len bs true] := by
  refine ⟨rfl, ?_⟩
  simp only [doWrite, wInit, doClose] at h ⊢
  rcases hh : o.onceRes 0 bs.len bs with e | mm <;> rw [hh] at h
  · simp at h
  · rfl

/-- C2 witness: the concrete one-shot run `write [1,2,3]; close` under the
all-succeeding oracle produces exactly the `write_once(3, [1,2,3])` call. -/
theorem oneshot_write_close_trace_witness :
    (doWrite oGood wInit ⟨[1,2,3]⟩).res = .ok () ∧
    (doWrite oGood wInit ⟨[1,2,3]⟩).events
        ++ (doClose oGood (doWrite oGood wInit ⟨[1,2,3]⟩).st).events
      = [Event.writeOnce 3 ⟨[1,2,3]⟩ true] :=
  oneshot_write_close_trace oGood ⟨[1,2,3]⟩ ⟨3⟩ (by decide)

/-- C3: on the one-shot path (`upload_id` unset) a failing `write_once`
during `close` leaves the cache unchanged so a retried `close` re-submits
the same buffer; the cache is cleared exactly when `write_once` succeeds. -/
theorem oneshot_close_cache_retry (o : Oracle) (s : WState) (h : s.upload_id = none) :
    (∀ e, (doClose o s).res = .error e → (doClose o s).st.cache = s.cache) ∧
    (∀ m, (doClose o s).res = .ok m → (doClose o s).st.cache = none) := by
  simp only [doClose, h]
  rcases hh : o.onceRes s.clock (match s.cache with | some c => c.len | none => 0)
      (match s.cache with | some c => c | none => Buffer.new) with e | m <;>
    simp [hh]

/-- C3 witness: with the always-failing oracle, a failed one-shot `close`
leaves the cached buffer `[7]` in place. -/
theorem oneshot_close_cache_retry_witness :
    (doClose oBad { wInit with cache := some ⟨[7]⟩ }).st.cache
      = ({ wInit with cache := some ⟨[7]⟩ } : WState).cache :=
  (oneshot_close_cache_retry oBad { wInit with cache := some ⟨[7]⟩ } rfl).1 errTmp (by decide)

/-- C4: whenever `write` fails (in particular when submitting the cached
part to the task pool fails), the cache still holds the previously cached
buffer and `next_part_number` is not incremented, so a retried write reuses
the same part number. -/
theorem write_failure_preserves_state (o : Oracle) (s : WState) (bs : Buffer) (e : Error)
    (h : (doWrite o s bs).res = .error e) :
    (doWrite o s bs).st.cache = s.cache ∧
    (doWrite o s bs).st.next_part_number = s.next_part_number := by
  unfold doWrite at h ⊢
  rcases hu : s.upload_id with _ | uid <;> rw [hu] at h <;>
    rcases hc : s.cache with _ | c <;> rw [hc] at h
  · simp at h
  · rcases hi : o.initRes s.clock with ie | uid2 <;> rw [hi] at h
    · exact ⟨rfl, rfl⟩
    · rcases hx : o.execRes (s.clock + 1) with _ | xe <;> rw [hx] at h
      · simp at h
      · exact ⟨rfl, rfl⟩
  · exact ⟨hc, rfl⟩
  · rcases hx : o.execRes s.clock with _ | xe <;> rw [hx] at h
    · simp at h
    · exact ⟨rfl, rfl⟩

/-- C4 witness: under the failing oracle a `write` on a mid-session state
keeps the cached buffer `[9]` and part number 5. -/
theorem write_failure_preserves_state_witness :
    (doWrite oBad sMid ⟨[8]⟩).st.cache = sMid.cache ∧
    (doWrite oBad sMid ⟨[8]⟩).st.next_part_number = sMid.next_part_number :=
  write_failure_preserves_state oBad sMid ⟨[8]⟩ errTmp (by decide)

/-- C5: `abort` on a writer whose `upload_id` is unset returns `Ok` without
touching the backend or the state; with an `upload_id` set it clears the
task pool, drops the cache, calls `abort_part(upload_id)` and never calls
`complete_part`. -/
theorem abort_behaviour (o : Oracle) (s : WState) :
    (s.upload_id = none →
      (doAbort o s).res = .ok () ∧ (doAbort o s).st = s ∧ (doAbort o s).events = []) ∧
    (∀ uid, s.upload_id = some uid →
      (doAbort o s).st.queue = [] ∧ (doAbort o s).st.cache = none ∧
      (∃ b, (doAbort o s).events = [Event.abortPart uid b]) ∧
      completeCalls (doAbort o s).events = []) := by
  constructor
  · intro h
    simp [doAbort, h]
  · intro uid h
    simp only [doAbort, h]
    rcases ha : o.abortRes s.clock uid with _ | ae <;>
      simp [ha, completeCalls]

/-- C5 witness: aborting the concrete mid-session state clears the pool and
cache, performs one `abort_part` call and no `complete_part` call. -/
theorem abort_behaviour_witness :
    (doAbort oGood sMid).st.queue = [] ∧ (doAbort oGood sMid).st.cache = none ∧
    (∃ b, (doAbort oGood sMid).events = [Event.abortPart "uid-1" b]) ∧
    completeCalls (doAbort oGood sMid).events = [] :=
  (abort_behaviour oGood sMid).2 "uid-1" rfl

theorem okPartPns_append (a b : List Event) :
    okPartPns (a ++ b) = okPartPns a ++ okPartPns b := by
  simp [okPartPns]

theorem completeCalls_append (a b : List Event) :
    completeCalls (a ++ b) = completeCalls a ++ completeCalls b := by
  simp [completeCalls]

/-- What draining the pool does: some prefix of length `k` of the queue is
popped, its parts (carrying the submitted part numbers, by `HonorsParts`)
are appended to the collected list in order, the successful `write_part`
calls are exactly that prefix, `k` covers the whole queue when the drain
succeeds, and no `complete_part` call is made. -/
theorem drainGo_spec (o : Oracle) (uid : String) (hHon : HonorsParts o) :
    ∀ (queue : List (Nat × Buffer)) (clock : Nat) (parts : List MultipartPart),
    ∃ k, k ≤ queue.length ∧
      (drainGo o uid clock parts queue).parts.map MultipartPart.part_number
        = parts.map MultipartPart.part_number ++ (queue.map Prod.fst).take k ∧
      (drainGo o uid clock parts queue).queue = queue.drop k ∧
      okPartPns (drainGo o uid clock parts queue).events = (queue.map Prod.fst).take k ∧
      ((drainGo o uid clock parts queue).res = .ok () → k = queue.length) ∧
      completeCalls (drainGo o uid clock parts queue).events = []
  | [], clock, parts => ⟨0, by simp [drainGo, okPartPns, completeCalls]⟩
  | (pn, bs) :: rest, clock, parts => by
    rcases hp : o.partRes clock pn bs with e | p
    · refine ⟨0, by simp, ?_, ?_, ?_, ?_, ?_⟩ <;>
        simp [drainGo, hp, okPartPns, completeCalls]
    · obtain ⟨k, hk, hparts, hqueue, hok, hres, hcomp⟩ :=
        drainGo_spec o uid hHon rest (clock + 1) (parts ++ [p])
      have hpn : p.part_number = pn := hHon _ _ _ _ hp
      refine ⟨k + 1, Nat.succ_le_succ hk, ?_, ?_, ?_, ?_, ?_⟩ <;>
        simp only [drainGo, hp, List.map_cons, List.take_succ_cons, List.drop_succ_cons]
      · rw [hparts]
        simp [hpn]
      · exact hqueue
      · simp only [okPartPns, List.filterMap_cons]
        simp only [okPartPns] at hok
        rw [hok]
      · intro hr
        rw [hres hr, List.length_cons]
      · simpa [completeCalls] using hcomp

/-- Draining never calls `complete_part`, for any oracle. -/
theorem drainGo_no_complete (o : Oracle) (uid : String) :
    ∀ (queue : List (Nat × Buffer)) (clock : Nat) (parts : List MultipartPart),
    completeCalls (drainGo o uid clock parts queue).events = []
  | [], _, _ => by simp [drainGo, completeCalls]
  | (pn, bs) :: rest, clock, parts => by
    rcases hp : o.partRes clock pn bs with e | p
    · simp [drainGo, hp, completeCalls]
    · have ih := drainGo_no_complete o uid rest (clock + 1) (parts ++ [p])
      simp only [drainGo, hp]
      simpa [completeCalls] using ih

/-- The drain / verify / complete tail preserves the session invariant, and
when it succeeds the pool is empty, exactly one successful `complete_part`
call was made — with the collected parts list — and that list has length
`next_part_number`. -/
theorem inv_closeDrain (o : Oracle) (uid : String) (hHon : HonorsParts o)
    (s : WState) (tr : List Event) (hInv : Inv s tr) :
    Inv (closeDrain o uid s).st (tr ++ (closeDrain o uid s).events) ∧
    (∀ m, (closeDrain o uid s).res = .ok m →
      (closeDrain o uid s).st.queue = [] ∧
      completeCalls (closeDrain o uid s).events
        = [(uid, (closeDrain o uid s).st.parts, true)] ∧
      (closeDrain o uid s).st.parts.length = (closeDrain o uid s).st.next_part_number) := by
  obtain ⟨k, hk, hparts, hqueue, hok, hres, hcomp⟩ :=
    drainGo_spec o uid hHon s.queue s.clock s.parts
  obtain ⟨hEq, hTr, hNone⟩ := hInv
  have hqf : (drainGo o uid s.clock s.parts s.queue).queue.map Prod.fst
      = (s.queue.map Prod.fst).drop k := by rw [hqueue, List.map_drop]
  have hEq2 : (drainGo o uid s.clock s.parts s.queue).parts.map MultipartPart.part_number
        ++ (drainGo o uid s.clock s.parts s.queue).queue.map Prod.fst
      = List.range s.next_part_number := by
    rw [hparts, hqf, List.append_assoc, List.take_append_drop]
    exact hEq
  have hTr2 : okPartPns (tr ++ (drainGo o uid s.clock s.parts s.queue).events)
      = (drainGo o uid s.clock s.parts s.queue).parts.map MultipartPart.part_number := by
    rw [okPartPns_append, hok, hTr, hparts]
  have hNone2 : s.upload_id = none →
      (drainGo o uid s.clock s.parts s.queue).parts = [] ∧
      (drainGo o uid s.clock s.parts s.queue).queue = [] ∧
      s.next_part_number = 0 := by
    intro hu
    obtain ⟨hp0, hq0, hn0⟩ := hNone hu
    refine ⟨?_, by rw [hqueue, hq0, List.drop_nil], hn0⟩
    rw [hp0, hq0]
    simp [drainGo]
  simp only [closeDrain]
  rcases hr : (drainGo o uid s.clock s.parts s.queue).res with e | u
  · refine ⟨⟨hEq2, hTr2, fun hu => ?_⟩, by simp⟩
    obtain ⟨hp0, hq0, hn0⟩ := hNone2 hu
    exact ⟨by simp [hp0], by simp [hq0], hn0⟩
  · have hkq : k = s.queue.length := hres hr
    have hq0 : (drainGo o uid s.clock s.parts s.queue).queue = [] := by
      simp [hqueue, hkq]
    by_cases hlen :
        (drainGo o uid s.clock s.parts s.queue).parts.length ≠ s.next_part_number
    · rw [if_pos hlen]
      refine ⟨⟨hEq2, hTr2, fun hu => ?_⟩, by simp⟩
      obtain ⟨hp0, hq0', hn0⟩ := hNone2 hu
      exact ⟨by simp [hp0], by simp [hq0'], hn0⟩
    · rw [if_neg hlen]
      rcases hc : o.completeRes (drainGo o uid s.clock s.parts s.queue).clock uid
          (drainGo o uid s.clock s.parts s.queue).parts with e | m
      · refine ⟨⟨?_, ?_, fun hu => ?_⟩, by simp⟩
        · exact hEq2
        · rw [← List.append_assoc, okPartPns_append, hTr2]
          simp [okPartPns]
        · obtain ⟨hp0, hq0', hn0⟩ := hNone2 hu
          exact ⟨by simp [hp0], by simp [hq0'], hn0⟩
      · refine ⟨⟨?_, ?_, fun hu => ?_⟩, fun m2 hm2 => ⟨hq0, ?_, ?_⟩⟩
        · exact hEq2
        · rw [← List.append_assoc, okPartPns_append, hTr2]
          simp [okPartPns]
        · obtain ⟨hp0, hq0', hn0⟩ := hNone2 hu
          exact ⟨by simp [hp0], by simp [hq0'], hn0⟩
        · rw [completeCalls_append, hcomp]
          simp [completeCalls]
        · exact not_ne_iff.mp hlen

/-- `write` preserves the session invariant, whatever the oracle does. -/
theorem inv_doWrite (o : Oracle) (s : WState) (bs : Buffer) (tr : List Event)
    (hInv : Inv s tr) :
    Inv (doWrite o s bs).st (tr ++ (doWrite o s bs).events) := by
  obtain ⟨hEq, hTr, hNone⟩ := hInv
  unfold doWrite
  rcases hu : s.upload_id with _ | uid
  · rcases hc : s.cache with _ | c
    · exact ⟨hEq, by simpa using hTr, fun _ => hNone hu⟩
    · have hsub : s.parts.map MultipartPart.part_number
            ++ ((s.queue ++ [(s.next_part_number, c)]).map Prod.fst)
          = List.range (s.next_part_number + 1) := by
        rw [List.map_append, ← List.append_assoc, hEq]
        simp [List.range_succ]
      rcases hi : o.initRes s.clock with ie | uid2
      · refine ⟨hEq, ?_, fun _ => hNone hu⟩
        rw [okPartPns_append]
        simpa [okPartPns] using hTr
      · rcases hx : o.execRes (s.clock + 1) with _ | xe
        · refine ⟨hsub, ?_, fun h => by simp at h⟩
          rw [okPartPns_append]
          simpa [okPartPns] using hTr
        · refine ⟨hEq, ?_, fun h => by simp at h⟩
          rw [okPartPns_append]
          simpa [okPartPns] using hTr
  · rcases hc : s.cache with _ | c
    · exact ⟨hEq, by simpa using hTr, fun h => hNone h⟩
    · have hsub : s.parts.map MultipartPart.part_number
            ++ ((s.queue ++ [(s.next_part_number, c)]).map Prod.fst)
          = List.range (s.next_part_number + 1) := by
        rw [List.map_append, ← List.append_assoc, hEq]
        simp [List.range_succ]
      rcases hx : o.execRes s.clock with _ | xe
      · exact ⟨hsub, by simpa using hTr, fun h => by simp at h⟩
      · exact ⟨hEq, by simpa using hTr, fun h => by simp at h⟩

/-- `closeSubmit` performs no backend call of its own. -/
theorem closeSubmit_events (o : Oracle) (s : WState) :
    (closeSubmit o s).events = [] := by
  unfold closeSubmit
  rcases hc : s.cache with _ | c
  · rfl
  · rcases hx : o.execRes s.clock with _ | xe <;> rfl

/-- Submitting the final cached part preserves the session invariant and
the upload id (invoked only with `upload_id` set). -/
theorem inv_closeSubmit (o : Oracle) (s : WState) (uid : String) (tr : List Event)
    (hu : s.upload_id = some uid) (hInv : Inv s tr) :
    Inv (closeSubmit o s).st tr ∧
    (closeSubmit o s).st.upload_id = some uid := by
  obtain ⟨hEq, hTr, hNone⟩ := hInv
  unfold closeSubmit
  rcases hc : s.cache with _ | c
  · exact ⟨⟨hEq, hTr, hNone⟩, hu⟩
  · rcases hx : o.execRes s.clock with _ | xe
    · have hsub : s.parts.map MultipartPart.part_number
            ++ ((s.queue ++ [(s.next_part_number, c)]).map Prod.fst)
          = List.range (s.next_part_number + 1) := by
        rw [List.map_append, ← List.append_assoc, hEq]
        simp [List.range_succ]
      refine ⟨⟨hsub, hTr, fun h => ?_⟩, hu⟩
      rw [hu] at h
      exact Option.noConfusion h
    · exact ⟨⟨hEq, hTr, hNone⟩, hu⟩

/-- When the final-part submission fails, `close` returns that error with
the submission's state and events. -/
theorem doClose_some_err (o : Oracle) (s : WState) (uid : String) (e : Error)
    (hu : s.upload_id = some uid) (hr1 : (closeSubmit o s).res = .error e) :
    doClose o s
      = { res := .error e, st := (closeSubmit o s).st
          events := (closeSubmit o s).events } := by
  unfold doClose
  simp only [hu, hr1]

/-- When the final-part submission succeeds, `close` is the drain / verify /
complete tail on the submission's state. -/
theorem doClose_some_ok (o : Oracle) (s : WState) (uid : String) (u : Unit)
    (hu : s.upload_id = some uid) (hr1 : (closeSubmit o s).res = .ok u) :
    doClose o s
      = { res := (closeDrain o uid (closeSubmit o s).st).res
          st := (closeDrain o uid (closeSubmit o s).st).st
          events := (closeSubmit o s).events
            ++ (closeDrain o uid (closeSubmit o s).st).events } := by
  unfold doClose
  simp only [hu, hr1]

/-- `close` preserves the session invariant; when it succeeds on a session
with `upload_id` set, the pool drains completely, exactly one successful
`complete_part` call is made — with the collected parts — and the parts
list has length `next_part_number`. -/
theorem inv_doClose (o : Oracle) (hHon : HonorsParts o) (s : WState) (tr : List Event)
    (hInv : Inv s tr) :
    Inv (doClose o s).st (tr ++ (doClose o s).events) ∧
    (∀ uid m, s.upload_id = some uid → (doClose o s).res = .ok m →
      (doClose o s).st.queue = [] ∧
      completeCalls (doClose o s).events
        = [(uid, (doClose o s).st.parts, true)] ∧
      (doClose o s).st.parts.length = (doClose o s).st.next_part_number) := by
  obtain ⟨hEq, hTr, hNone⟩ := hInv
  rcases hu : s.upload_id with _ | uid
  · simp only [doClose, hu]
    rcases ho : o.onceRes s.clock
        (match s.cache with | some c => c.len | none => 0)
        (match s.cache with | some c => c | none => Buffer.new) with e | m
    · refine ⟨⟨hEq, ?_, fun _ => hNone hu⟩, ?_⟩
      · rw [okPartPns_append]
        simpa [okPartPns] using hTr
      · intro u2 m h
        exact Option.noConfusion h
    · refine ⟨⟨hEq, ?_, fun _ => hNone hu⟩, ?_⟩
      · rw [okPartPns_append]
        simpa [okPartPns] using hTr
      · intro u2 m h
        exact Option.noConfusion h
  · obtain ⟨hInv1, huid1⟩ := inv_closeSubmit o s uid tr hu ⟨hEq, hTr, hNone⟩
    have hev1 := closeSubmit_events o s
    rcases hr1 : (closeSubmit o s).res with e | u
    · rw [doClose_some_err o s uid e hu hr1]
      refine ⟨?_, by simp⟩
      rw [hev1]
      simpa using hInv1
    · rw [doClose_some_ok o s uid u hu hr1]
      obtain ⟨hInv2, hSucc⟩ := inv_closeDrain o uid hHon (closeSubmit o s).st tr hInv1
      constructor
      · rw [hev1, List.nil_append]
        exact hInv2
      · intro uid2 m hu2 hres2
        have huu : uid2 = uid := (Option.some.inj hu2).symm
        subst huu
        obtain ⟨hq0, hcc, hlen⟩ := hSucc m hres2
        refine ⟨hq0, ?_, hlen⟩
        rw [hev1, List.nil_append]
        exact hcc

/-- The drain / verify / complete tail calls `complete_part` at most once. -/
theorem closeDrain_complete_le_one (o : Oracle) (uid : String) (s : WState) :
    (completeCalls (closeDrain o uid s).events).length ≤ 1 := by
  have h0 := drainGo_no_complete o uid s.queue s.clock s.parts
  simp only [closeDrain]
  rcases hr : (drainGo o uid s.clock s.parts s.queue).res with e | u
  · simp [h0]
  · by_cases hlen :
        (drainGo o uid s.clock s.parts s.queue).parts.length ≠ s.next_part_number
    · rw [if_pos hlen]
      simp [h0]
    · rw [if_neg hlen]
      rcases hc : o.completeRes (drainGo o uid s.clock s.parts s.queue).clock uid
          (drainGo o uid s.clock s.parts s.queue).parts with e | m <;>
        (rw [completeCalls_append, h0]; simp [completeCalls])

/-- A single `close` invocation calls `complete_part` at most once, for any
oracle and any starting state. -/
theorem doClose_complete_le_one (o : Oracle) (s : WState) :
    (completeCalls (doClose o s).events).length ≤ 1 := by
  rcases hu : s.upload_id with _ | uid
  · simp only [doClose, hu]
    rcases ho : o.onceRes s.clock
        (match s.cache with | some c => c.len | none => 0)
        (match s.cache with | some c => c | none => Buffer.new) with e | m <;>
      simp [completeCalls]
  · rcases hr1 : (closeSubmit o s).res with e | u
    · rw [doClose_some_err o s uid e hu hr1, closeSubmit_events o s]
      simp [completeCalls]
    · rw [doClose_some_ok o s uid u hu hr1, closeSubmit_events o s]
      simpa [completeCalls_append, completeCalls] using
        closeDrain_complete_le_one o uid (closeSubmit o s).st

/-- Running any abort-free sequence of user operations preserves the
session invariant over the accumulated trace. -/
theorem inv_runOps (o : Oracle) (hHon : HonorsParts o) :
    ∀ (ops : List Op), NoAbort ops → ∀ (s : WState) (tr : List Event), Inv s tr →
      Inv (runOps o s ops).1 (tr ++ (runOps o s ops).2)
  | [], _, s, tr, hInv => by simpa [runOps] using hInv
  | op :: rest, hNA, s, tr, hInv => by
    have hNArest : NoAbort rest := fun x hx => hNA x (List.mem_cons_of_mem _ hx)
    rcases op with bs | _ | _
    · have h1 := inv_doWrite o s bs tr hInv
      have h2 := inv_runOps o hHon rest hNArest (doWrite o s bs).st
        (tr ++ (doWrite o s bs).events) h1
      simpa [runOps, stepOp, List.append_assoc] using h2
    · have h1 := (inv_doClose o hHon s tr hInv).1
      have h2 := inv_runOps o hHon rest hNArest (doClose o s).st
        (tr ++ (doClose o s).events) h1
      simpa [runOps, stepOp, List.append_assoc] using h2
    · exact absurd rfl (hNA Op.abort (List.mem_cons_self _ _))

/-- The fresh writer satisfies the session invariant on the empty trace. -/
theorem inv_wInit : Inv wInit [] :=
  ⟨by simp [wInit], by simp [okPartPns, wInit], fun _ => ⟨rfl, rfl, rfl⟩⟩

/-- C1 (amended): for every abort-free run of a multipart session whose
final `close` succeeds with `upload_id` set, the successful `write_part`
calls in the whole session trace carry exactly the part numbers
`0, 1, …, N-1` in order (no gaps, no duplicates, `N` the final
`next_part_number`); the final `close` makes exactly one — successful —
`complete_part` call whose `parts` argument is the collected list, of
length `N`, whose part numbers are exactly `0, 1, …, N-1` and hence sorted
strictly ascending by `part_number`.  Any single `close` invocation calls
`complete_part` at most once (the amendment: across a whole session a
`close` retried after a failed `complete_part` calls it again, so
at-most-once holds per invocation, not per session).  Finally, whenever the
collected parts count differs from `next_part_number` after draining,
`close` fails with `ErrorKind::Unexpected` and `complete_part` is not
called. -/
theorem multipart_close_invariants :
    (∀ o : Oracle, HonorsParts o → ∀ ops : List Op, NoAbort ops →
      ∀ (uid : String) (m : Metadata),
      (runOps o wInit ops).1.upload_id = some uid →
      (doClose o (runOps o wInit ops).1).res = .ok m →
      okPartPns ((runOps o wInit ops).2 ++ (doClose o (runOps o wInit ops).1).events)
          = List.range (doClose o (runOps o wInit ops).1).st.next_part_number ∧
      completeCalls (doClose o (runOps o wInit ops).1).events
          = [(uid, (doClose o (runOps o wInit ops).1).st.parts, true)] ∧
      (doClose o (runOps o wInit ops).1).st.parts.map MultipartPart.part_number
          = List.range (doClose o (runOps o wInit ops).1).st.next_part_number ∧
      (doClose o (runOps o wInit ops).1).st.parts.length
          = (doClose o (runOps o wInit ops).1).st.next_part_number ∧
      ((doClose o (runOps o wInit ops).1).st.parts.map
          MultipartPart.part_number).Sorted (· < ·)) ∧
    (∀ (o : Oracle) (s : WState), (completeCalls (doClose o s).events).length ≤ 1) ∧
    (∀ (o : Oracle) (s : WState) (uid : String), s.upload_id = some uid →
      s.cache = none → s.queue = [] → s.parts.length ≠ s.next_part_number →
      (doClose o s).res = .error mismatchError ∧ mismatchError.kind = .Unexpected ∧
      completeCalls (doClose o s).events = []) := by
  refine ⟨?_, doClose_complete_le_one, ?_⟩
  · intro o hHon ops hNA uid m hu hok
    have hRun := inv_runOps o hHon ops hNA wInit [] inv_wInit
    rw [List.nil_append] at hRun
    obtain ⟨hInvF, hSucc⟩ :=
      inv_doClose o hHon (runOps o wInit ops).1 (runOps o wInit ops).2 hRun
    obtain ⟨hq0, hcc, hlen⟩ := hSucc uid m hu hok
    obtain ⟨hEqF, hTrF, _⟩ := hInvF
    have hPns : (doClose o (runOps o wInit ops).1).st.parts.map MultipartPart.part_number
        = List.range (doClose o (runOps o wInit ops).1).st.next_part_number := by
      rw [hq0] at hEqF
      simpa using hEqF
    refine ⟨by rw [hTrF, hPns], hcc, hPns, hlen, ?_⟩
    rw [hPns]
    exact List.sorted_lt_range _
  · intro o s uid hu hc hq hne
    have hsub : closeSubmit o s = { res := .ok (), st := s, events := [] } := by
      unfold closeSubmit
      rw [hc]
    have hdrain : drainGo o uid s.clock s.parts s.queue
        = { res := .ok (), clock := s.clock, parts := s.parts, queue := [], events := [] } := by
      rw [hq]
      rfl
    rw [doClose_some_ok o s uid () hu (by rw [hsub])]
    simp only [closeDrain, hsub, hdrain]
    rw [if_pos hne]
    exact ⟨rfl, rfl, by simp [completeCalls]⟩

/-- C1 witness: the two-part session `write [0]; write [1]; close` under
the all-succeeding oracle makes exactly one successful `complete_part`
call, carrying the collected parts. -/
theorem multipart_close_invariants_witness :
    completeCalls (doClose oGood
        (runOps oGood wInit [Op.write ⟨[0]⟩, Op.write ⟨[1]⟩]).1).events
      = [("uid-1",
          (doClose oGood (runOps oGood wInit [Op.write ⟨[0]⟩, Op.write ⟨[1]⟩]).1).st.parts,
          true)] :=
  (multipart_close_invariants.1 oGood
    (fun k pn bs p h => by injection h with h2; subst h2; rfl)
    [Op.write ⟨[0]⟩, Op.write ⟨[1]⟩] (by intro op hop; fin_cases hop <;> decide)
    "uid-1" { content_length := 0 } (by decide) (by decide)).2.1

/-- C1 counterexample to the claim as stated: in the session
`write [0]; write [1]; close; close` under `oFlakyComplete` the first
`close` fails inside `complete_part` and the retried `close` succeeds, so
the session's `close` does complete successfully and yet `complete_part`
was invoked twice over the session — refuting the claim's
"complete_part is called at most once" conjunct read per session. -/
theorem multipart_complete_twice_cx :
    (doClose oFlakyComplete
        (runOps oFlakyComplete wInit [Op.write ⟨[0]⟩, Op.write ⟨[1]⟩, Op.close]).1).res
      = .ok { content_length := 2 } ∧
    (completeCalls
        ((runOps oFlakyComplete wInit [Op.write ⟨[0]⟩, Op.write ⟨[1]⟩, Op.close]).2
          ++ (doClose oFlakyComplete
            (runOps oFlakyComplete wInit
              [Op.write ⟨[0]⟩, Op.write ⟨[1]⟩, Op.close]).1).events)).length = 2 ∧
    ¬ ((completeCalls
        ((runOps oFlakyComplete wInit [Op.write ⟨[0]⟩, Op.write ⟨[1]⟩, Op.close]).2
          ++ (doClose oFlakyComplete
            (runOps oFlakyComplete wInit
              [Op.write ⟨[0]⟩, Op.write ⟨[1]⟩, Op.close]).1).events)).length ≤ 1) := by
  decide

/-- C10: `close` on a fresh writer (no prior `write`) calls
`write_once(0, empty buffer)`: the zero-byte object write is delegated to
the backend, and `close` returns exactly the backend's answer. -/
theorem close_fresh_zero_byte (o : Oracle) :
    (doClose o wInit).res = o.onceRes 0 0 Buffer.new ∧
    (doClose o wInit).events
      = [Event.writeOnce 0 Buffer.new (exOk (o.onceRes 0 0 Buffer.new))] := by
  simp only [doClose, wInit]
  rcases h : o.onceRes 0 0 Buffer.new with e | m <;> simp [h, exOk]

/-- C6: the `LoggingAccessor` produced by `LoggingLayer` forwards every
operation (`create_dir`, `read`, `write`, `copy`, `rename`, `stat`,
`delete`, `list`, `presign`) to the inner accessor and returns exactly its
result — the same success value (stream handles being returned wrapped in
a fresh progress wrapper around the very inner stream) or the same error —
for every interceptor, every inner accessor and every input; and every
stream-wrapper call (`read`, `write`/`close`/`abort`, `next`,
`delete`/`flush`) likewise returns exactly the inner stream's result. -/
theorem logging_layer_forwards :
    (∀ (α ρ : Type) (logger : Logger) (inner : String → α → Except Error ρ)
        (path : String) (args : α),
      (LoggingAccessor.create_dir logger inner path args).1 = inner path args) ∧
    (∀ (α ρ : Type) (logger : Logger)
        (inner : String → α → Except Error (ρ × InnerReader))
        (path : String) (args : α),
      (LoggingAccessor.read logger inner path args).1
        = (inner path args).map (fun x => (x.1, LoggingReader.new path x.2))) ∧
    (∀ (α ρ : Type) (logger : Logger)
        (inner : String → α → Except Error (ρ × InnerWriter))
        (path : String) (args : α),
      (LoggingAccessor.write logger inner path args).1
        = (inner path args).map (fun x => (x.1, LoggingWriter.new path x.2))) ∧
    (∀ (α ρ : Type) (logger : Logger) (inner : String → String → α → Except Error ρ)
        (frm dst : String) (args : α),
      (LoggingAccessor.copy logger inner frm dst args).1 = inner frm dst args) ∧
    (∀ (α ρ : Type) (logger : Logger) (inner : String → String → α → Except Error ρ)
        (frm dst : String) (args : α),
      (LoggingAccessor.rename logger inner frm dst args).1 = inner frm dst args) ∧
    (∀ (α ρ : Type) (logger : Logger) (inner : String → α → Except Error ρ)
        (path : String) (args : α),
      (LoggingAccessor.stat logger inner path args).1 = inner path args) ∧
    (∀ (ρ : Type) (logger : Logger) (inner : Except Error (ρ × InnerDeleter)),
      (LoggingAccessor.delete logger inner).1
        = inner.map (fun x => (x.1, LoggingDeleter.new x.2))) ∧
    (∀ (α ρ : Type) (logger : Logger)
        (inner : String → α → Except Error (ρ × InnerLister))
        (path : String) (args : α),
      (LoggingAccessor.list logger inner path args).1
        = (inner path args).map (fun x => (x.1, LoggingLister.new path x.2))) ∧
    (∀ (α ρ : Type) (logger : Logger) (inner : String → α → Except Error ρ)
        (path : String) (args : α),
      (LoggingAccessor.presign logger inner path args).1 = inner path args) ∧
    (∀ (logger : Logger) (r : LoggingReader),
      (LoggingReader.readStep logger r).1 = r.inner r.idx) ∧
    (∀ (logger : Logger) (w : LoggingWriter) (bs : Buffer),
      (LoggingWriter.writeStep logger w bs).1 = w.inner.writeRes w.clock bs) ∧
    (∀ (logger : Logger) (w : LoggingWriter),
      (LoggingWriter.closeStep logger w).1 = w.inner.closeRes w.clock) ∧
    (∀ (logger : Logger) (w : LoggingWriter),
      (LoggingWriter.abortStep logger w).1 = w.inner.abortRes w.clock) ∧
    (∀ (logger : Logger) (l : LoggingLister),
      (LoggingLister.nextStep logger l).1 = l.inner l.idx) ∧
    (∀ (logger : Logger) (d : LoggingDeleter) (path : String) (version : Option String),
      (LoggingDeleter.deleteStep logger d path version).1
        = d.inner.deleteRes d.clock path version) ∧
    (∀ (logger : Logger) (d : LoggingDeleter),
      (LoggingDeleter.flushStep logger d).1 = d.inner.flushRes d.clock) := by
  refine ⟨?_, ?_, ?_, ?_, ?_, ?_, ?_, ?_, ?_, ?_, ?_, ?_, ?_, ?_, ?_, ?_⟩
  · intro α ρ logger inner path args
    unfold LoggingAccessor.create_dir
    rcases h : inner path args with e | rp <;> rfl
  · intro α ρ logger inner path args
    unfold LoggingAccessor.read
    rcases h : inner path args with e | x <;> rfl
  · intro α ρ logger inner path args
    unfold LoggingAccessor.write
    rcases h : inner path args with e | x <;> rfl
  · intro α ρ logger inner frm dst args
    unfold LoggingAccessor.copy
    rcases h : inner frm dst args with e | rp <;> rfl
  · intro α ρ logger inner frm dst args
    unfold LoggingAccessor.rename
    rcases h : inner frm dst args with e | rp <;> rfl
  · intro α ρ logger inner path args
    unfold LoggingAccessor.stat
    rcases h : inner path args with e | rp <;> rfl
  · intro ρ logger inner
    unfold LoggingAccessor.delete
    rcases h : inner with e | x <;> rfl
  · intro α ρ logger inner path args
    unfold LoggingAccessor.list
    rcases h : inner path args with e | x <;> rfl
  · intro α ρ logger inner path args
    unfold LoggingAccessor.presign
    rcases h : inner path args with e | rp <;> rfl
  · intro logger r
    rcases h : r.inner r.idx with e | bs
    · simp [LoggingReader.readStep, h]
    · by_cases hz : bs.len = 0 <;> simp [LoggingReader.readStep, h, hz]
  · intro logger w bs
    unfold LoggingWriter.writeStep
    rcases h : w.inner.writeRes w.clock bs with e | u <;> rfl
  · intro logger w
    unfold LoggingWriter.closeStep
    rcases h : w.inner.closeRes w.clock with e | m <;> rfl
  · intro logger w
    unfold LoggingWriter.abortStep
    rcases h : w.inner.abortRes w.clock with e | u <;> rfl
  · intro logger l
    unfold LoggingLister.nextStep
    rcases h : l.inner l.idx with e | oe
    · rfl
    · rcases oe with _ | en <;> rfl
  · intro logger d path version
    unfold LoggingDeleter.deleteStep
    rcases h : d.inner.deleteRes d.clock path version with e | u <;> rfl
  · intro logger d
    unfold LoggingDeleter.flushStep
    rcases h : d.inner.flushRes d.clock with e | n <;> rfl

/-- C7: invoked with a non-null error, the default logging interceptor
emits (first) a record at `Error` level when the error's kind is
`Unexpected` and at `Warn` level for every other kind, with the error
attached. -/
theorem default_interceptor_error_level (op : Operation)
    (ctx : List (String × String)) (msg : String) (e : Error) :
    (DefaultLoggingInterceptor.log op ctx msg (some e)).head?
      = some { level := if e.kind = ErrorKind.Unexpected then Level.error else Level.warn
               operation := op, context := ctx, message := msg, err := some e } := rfl

/-- C8: a `LoggingDeleter.flush` that succeeds with count `n` decreases the
`queued` counter by exactly `n` and increases the `deleted` counter by
exactly `n`; a failed flush leaves both counters unchanged. -/
theorem logging_deleter_flush_counters (logger : Logger) (d : LoggingDeleter) :
    (∀ n, d.inner.flushRes d.clock = .ok n → n ≤ d.queued →
      (LoggingDeleter.flushStep logger d).2.1.queued + n = d.queued ∧
      (LoggingDeleter.flushStep logger d).2.1.deleted = d.deleted + n) ∧
    (∀ e, d.inner.flushRes d.clock = .error e →
      (LoggingDeleter.flushStep logger d).2.1.queued = d.queued ∧
      (LoggingDeleter.flushStep logger d).2.1.deleted = d.deleted) := by
  constructor
  · intro n hn hle
    unfold LoggingDeleter.flushStep
    rw [hn]
    exact ⟨Nat.sub_add_cancel hle, rfl⟩
  · intro e he
    unfold LoggingDeleter.flushStep
    rw [he]
    exact ⟨rfl, rfl⟩

/-- C8 witness: a deleter with three queued and one deleted item, whose
inner flush reports two deletions, ends with one queued and three
deleted. -/
theorem logging_deleter_flush_counters_witness :
    (LoggingDeleter.flushStep DefaultLoggingInterceptor.log
        { queued := 3, deleted := 1, clock := 0, inner := dInner }).2.1.queued + 2 = 3 ∧
    (LoggingDeleter.flushStep DefaultLoggingInterceptor.log
        { queued := 3, deleted := 1, clock := 0, inner := dInner }).2.1.deleted = 1 + 2 :=
  (logging_deleter_flush_counters DefaultLoggingInterceptor.log
    { queued := 3, deleted := 1, clock := 0, inner := dInner }).1 2 rfl (by decide)

/-- C9: `GcsBackend::presign` with a `Delete` presign operation fails with
`ErrorKind::Unsupported` — the operation is not silently no-opped — and
`presign` emits no network request for any presign operation and any
signer. -/
theorem gcs_presign_delete_unsupported :
    (∀ (sign_query : HttpRequest → Nat → Except Error HttpRequest)
        (path : String) (v expire : Nat),
      (GcsBackend.presign sign_query path (.delete v) expire).1
        = .error { kind := .Unsupported, message := "operation is not supported"
                   temporary := false }) ∧
    (∀ (sign_query : HttpRequest → Nat → Except Error HttpRequest)
        (path : String) (op : PresignOperation) (expire : Nat),
      (GcsBackend.presign sign_query path op expire).2 = []) := by
  constructor
  · intro sq path v expire
    rfl
  · intro sq path op expire
    unfold GcsBackend.presign
    rcases op with v | v | v | v
    · rcases h : sq (gcs_head_object_xml_request path v) expire with e | r2 <;> simp [h]
    · rcases h : sq (gcs_get_object_xml_request path v) expire with e | r2 <;> simp [h]
    · rcases h : sq (gcs_insert_object_xml_request path v) expire with e | r2 <;> simp [h]
    · rfl

end Opendal
